import Mathlib

/-!
Verification of the iReceptor dataloading-mongo parsers.

This file gives a shallow embedding of the repertoire / rearrangement
loading logic of `dataload/rearrangement.py` and `dataload/repertoire.py`
and proves the behavioural claims about it.  The external repository
(Mongo) and the AIRR mapping table are abstracted as explicit inputs:
each query result that the Python code obtains from them is a parameter
of the embedded function.  Python strings are Lean `String`s; Python
`None` is `Option.none`; record identifiers assigned by the repository
are modelled as `Nat` (their `str()` is `Nat.repr`).
-/

namespace Dataload

/-! ### Small models of the Python string primitives used by the parsers -/

/-- Python slicing `s[:n]`, as used for `gene[0:4]` and `v_call[:3]`. -/
def strTake (s : String) (n : Nat) : String :=
  String.mk (s.data.take n)

/-- Python `s.startswith(p)`. -/
def strStartsWith (s p : String) : Bool :=
  s.data.take p.data.length = p.data

/-- Python `"-" in s`. -/
def containsHyphen (s : String) : Bool :=
  s.data.contains '-'

/-- Helper for `pySplit`: walks the character list, cutting a token at every
delimiter character (empty tokens between consecutive delimiters are kept,
exactly as Python `re.split` on a single-character alternation does). -/
def pySplitAux (p : Char → Bool) : List Char → List Char → List String
  | [], acc => [String.mk acc.reverse]
  | c :: rest, acc =>
    if p c then String.mk acc.reverse :: pySplitAux p rest []
    else pySplitAux p rest (c :: acc)

/-- Python `re.split(',| |\|', s)`: split on every single occurrence of one of
the delimiter characters. -/
def pySplit (s : String) (p : Char → Bool) : List String :=
  pySplitAux p s.data []

/-! ### `Rearrangement.getRepertoireInfo` (dataload/rearrangement.py, lines 37-92)

The AIRR-map lookup of the rearrangement file field is the parameter
`fileField` (`none` models `getMapping` returning Python `None`); the
repository query `repositoryGetRepertoireIDs(file_field, filename)` is the
parameter `query` (`none` models a failed query). -/

def getRepertoireInfo (fileField : Option String)
    (query : String → Option (List Nat)) (filename : String) : Option Nat :=
  match fileField with
  | none => none
  | some _ =>
    match query filename with
    | none => none
    | some idarray =>
      if idarray.length = 0 then none
      else if idarray.length > 1 then none
      else idarray.head?

/-! ### `Rearrangement.setGene` (dataload/rearrangement.py, lines 253-283) -/

/-- The delimiter predicate of `re.split(',| |\|', gene)`. -/
def geneDelim (c : Char) : Bool :=
  c = ',' || c = ' ' || c = '|'

/-- `list(set(re.split(',| |\|', gene)))`: the deduplicated token list of a
gene-call string.  (Python's set iteration order is arbitrary; the order
produced by `List.dedup` is one admissible order.) -/
def geneTokens (g : String) : List String :=
  (pySplit g geneDelim).dedup

/-- `Rearrangement.setGene`.  `none` models a non-string input (Python `None`
or a NaN float), for which the source returns the empty list. -/
def setGene (gene : Option String) : List String :=
  match gene with
  | none => []
  | some g =>
    if g = "" then []
    else
      let gene_orig_list := geneTokens g
      if gene_orig_list.length = 0 then []
      else
        let locus_with_chain := strTake g 4
        gene_orig_list.filterMap fun current_gene =>
          if strStartsWith current_gene "IG" || strStartsWith current_gene "TR" then
            some current_gene
          else if containsHyphen current_gene then
            some (locus_with_chain ++ current_gene)
          else
            none

/-! ### `Rearrangement.getLocus` (dataload/rearrangement.py, lines 326-349)

The source prints warnings; we accumulate them as values so that the
"warning only, value unchanged" behaviour can be stated. -/

inductive LocusWarning where
  /-- "Attempting to set locus fron invalid v_call" (entry of length at most 3
  seen before a locus was established). -/
  | invalidVCall (v : String)
  /-- "Inconsistent loci across" (entry whose 3-character slice disagrees with
  the established locus). -/
  | inconsistentLoci
  /-- "locus with non IG and non TR found" (final sanity check). -/
  | nonLocusValue
deriving DecidableEq

/-- The `for v_call in v_call_array` loop of `getLocus`, with the running
`final_locus` and the warnings printed so far. -/
def getLocusLoop : List String → String → List LocusWarning → String × List LocusWarning
  | [], locus, warns => (locus, warns)
  | v :: rest, locus, warns =>
    if locus.length ≠ 3 then
      if v.length > 3 then getLocusLoop rest (strTake v 3) warns
      else getLocusLoop rest locus (warns ++ [.invalidVCall v])
    else if strTake v 3 ≠ locus then
      getLocusLoop rest locus (warns ++ [.inconsistentLoci])
    else
      getLocusLoop rest locus warns

/-- `Rearrangement.getLocus`: the returned locus string together with the
warnings the source would print. -/
def getLocus (v_call_array : List String) : String × List LocusWarning :=
  if (getLocusLoop v_call_array "" []).1.length = 3
      ∧ strTake (getLocusLoop v_call_array "" []).1 2 ≠ "IG"
      ∧ strTake (getLocusLoop v_call_array "" []).1 2 ≠ "TR" then
    ((getLocusLoop v_call_array "" []).1,
      (getLocusLoop v_call_array "" []).2 ++ [.nonLocusValue])
  else getLocusLoop v_call_array "" []

/-- The value `getLocus` establishes: the first 3 characters of the first
entry of length greater than 3 (empty if there is none). -/
def firstLocus (arr : List String) : String :=
  match arr.find? fun v => v.length > 3 with
  | some v => strTake v 3
  | none => ""

/-! ### `Rearrangement.checkAIRRRequired` (dataload/rearrangement.py, lines 100-121)

A row of the `airr_fields` mapping table, with the columns the function
reads.  `airr_required` models the source's
`row["airr_required"] == "TRUE" or row["airr_required"] == True` test and
`airr_nullable` the truthiness test on `row["airr_nullable"]`. -/

structure AirrFieldRow where
  airr_required : Bool
  airr_nullable : Bool
  /-- `row[self.getRepositoryTag()]`: the repository column name. -/
  repository_field : String
  /-- `row[self.getAIRRTag()]`: the AIRR name used in the error message. -/
  airr_name : String
deriving DecidableEq

/-- Provenance of a dataframe column: originally present in the batch, or
injected by the validator as an all-null (`np.nan`) column. -/
inductive ColSource where
  | input
  | nullFill
deriving DecidableEq

/-- `repository_field in dataframe.columns` on our dataframe model (a list of
column names tagged with their provenance). -/
def colMem (cols : List (String × ColSource)) (f : String) : Bool :=
  cols.any fun c => c.1 = f

/-- `Rearrangement.checkAIRRRequired`.  Returning `.error name` models
`return False` after printing the missing AIRR field `name`; `.ok cols`
models `return True` with `cols` the final dataframe columns (the source
mutates the dataframe in place when it null-fills a column). -/
def checkAIRRRequired : List AirrFieldRow → List (String × ColSource) →
    Except String (List (String × ColSource))
  | [], cols => .ok cols
  | row :: rest, cols =>
    if row.airr_required then
      if ¬ colMem cols row.repository_field then
        if row.airr_nullable then
          checkAIRRRequired rest (cols ++ [(row.repository_field, .nullFill)])
        else
          .error row.airr_name
      else checkAIRRRequired rest cols
    else checkAIRRRequired rest cols

/-! ### Repertoire records

A repertoire document as this loader sees it: the value of the repository
link field and the three identifier fields.  `none` models the key being
absent from the Mongo document, `some s` the key holding string `s`. -/

structure RepRecord where
  linkId : Nat
  rep_id : Option String
  data_id : Option String
  sample_id : Option String
deriving DecidableEq

/-- Python `==` between a stored document value and a possibly-`None` local
id value.  An absent key is modelled as unequal to everything (the source
only compares keys it has checked to be present, or keys this loader always
writes). -/
def pyEqOpt : Option String → Option String → Bool
  | some s, some t => s = t
  | some _, none => false
  | none, _ => false

/-! ### `Rearrangement.checkIDFields` (dataload/rearrangement.py, lines 126-182) -/

/-- A value assigned into a linkage column: either copied from the repertoire
record or defaulted to the repertoire link id. -/
inductive LinkVal where
  | fromRep (s : String)
  | fromLink (n : Nat)
deriving DecidableEq

/-- `field in dataframe` where the field name may be Python `None` (a `None`
mapping result is not a column label, so membership is false). -/
def optMemCols (field : Option String) (cols : List String) : Bool :=
  match field with
  | none => false
  | some f => cols.contains f

/-- One of the three `if not field is None: ...` assignment blocks at the end
of `checkIDFields`. -/
def assignIDField (field : Option String) (stored : Option String)
    (linkIdVal : Nat) : List (String × LinkVal) :=
  match field with
  | none => []
  | some f =>
    match stored with
    | some s => [(f, .fromRep s)]
    | none => [(f, .fromLink linkIdVal)]

/-- `Rearrangement.checkIDFields`.  `cols` are the column labels of the
incoming batch dataframe; `repIdF`, `dataIdF`, `sampleIdF` the AIRR-map
results for the three linkage fields; `reps` the result of
`repository.getRepertoires(repertoire_link_field, repertoire_link_id)`.
The result is the returned boolean together with the linkage-column
assignments performed on the dataframe. -/
def checkIDFields (cols : List String)
    (repIdF dataIdF sampleIdF : Option String)
    (reps : List RepRecord) (linkIdVal : Nat) : Bool × List (String × LinkVal) :=
  if optMemCols repIdF cols then (false, [])
  else if optMemCols dataIdF cols then (false, [])
  else if optMemCols sampleIdF cols then (false, [])
  else
    match reps with
    | [r] =>
      (true,
        assignIDField repIdF r.rep_id linkIdVal
          ++ assignIDField dataIdF r.data_id linkIdVal
          ++ assignIDField sampleIdF r.sample_id linkIdVal)
    | _ => (false, [])

/-! ### `Repertoire.validAIRRFieldType` (dataload/repertoire.py, lines 19-69)

A dynamically typed Python value as this validator inspects it.  `vfloat`
carries only whether the float is NaN, since the validator never looks at a
float's magnitude; `vnone` is Python `None`. -/

inductive PyVal where
  | vnone
  | vstr (s : String)
  | vbool (b : Bool)
  | vint (n : Int)
  | vfloat (isnan : Bool)
  | vlist (l : List PyVal)

/-- `pd.isnull(value)` on scalars: true for `None` and NaN. -/
def pdIsNull : PyVal → Bool
  | .vnone => true
  | .vfloat isnan => isnan
  | _ => false

/-- `isinstance(value, (str))`. -/
def isStrInst : PyVal → Bool
  | .vstr _ => true
  | _ => false

/-- `isinstance(value, (bool, np.bool_))`. -/
def isBoolInst : PyVal → Bool
  | .vbool _ => true
  | _ => false

/-- `isinstance(value, (int, np.integer))`.  A Python `bool` is a subtype of
`int`, so booleans satisfy this test. -/
def isIntInst : PyVal → Bool
  | .vint _ => true
  | .vbool _ => true
  | _ => false

/-- `isinstance(value, (float, int, np.floating, np.integer))`. -/
def isNumInst : PyVal → Bool
  | .vfloat _ => true
  | .vint _ => true
  | .vbool _ => true
  | _ => false

/-- `isinstance(value, (list))`. -/
def isListInst : PyVal → Bool
  | .vlist _ => true
  | _ => false

mutual

/-- `Repertoire.validAIRRFieldType`.  The three AIRR-map lookups for `key`
(`airr_type`, `airr_nullable`, `airr_is_array`) are passed as parameters
`fieldType`, `fieldNullable`, `isArray` (`none` models `getMapping`
returning Python `None`); the recursive call on list elements uses the same
`key`, hence the same lookup results. -/
def validAIRRFieldType (fieldType : Option String) (fieldNullable : Option Bool)
    (isArray : Option Bool) (strict : Bool) : PyVal → Bool
  | value =>
    match fieldType with
    | none => if strict then false else true
    | some ft =>
      if isListInst value = false ∧ pdIsNull value
          ∧ (fieldNullable = none ∨ fieldNullable = some true) then
        true
      else if isStrInst value ∧ ft = "string" then true
      else if isBoolInst value ∧ ft = "boolean" then true
      else if isIntInst value ∧ ft = "integer" then true
      else if isNumInst value ∧ ft = "number" then true
      else
        match _hv : value with
        | .vlist l =>
          if isArray = some true then
            validAIRRFieldTypeList fieldType fieldNullable isArray strict l
          else false
        | _ => false
termination_by value => sizeOf value

/-- The `for element in value` loop of the list branch: `valid_type` starts
`True` and is cleared by any failing element. -/
def validAIRRFieldTypeList (fieldType : Option String) (fieldNullable : Option Bool)
    (isArray : Option Bool) (strict : Bool) : List PyVal → Bool
  | [] => true
  | v :: rest =>
    validAIRRFieldType fieldType fieldNullable isArray strict v
      && validAIRRFieldTypeList fieldType fieldNullable isArray strict rest
termination_by l => sizeOf l

end

/-! ### `Repertoire.repositoryInsertRepertoire` (dataload/repertoire.py, lines 74-297)

The incoming `json_document`'s three identifier fields (`none` = key absent
from the document, `some s` = key present with string value `s`). -/

structure IncomingDoc where
  rep_id : Option String
  data_id : Option String
  sample_id : Option String
deriving DecidableEq

/-- The repository and mapping answers `repositoryInsertRepertoire` consumes,
passed explicitly. -/
structure InsertEnv where
  /-- `json_document[file_repository_field]` (`none` = Python `None`). -/
  fileNames : Option String
  /-- `repositoryGetRepertoireIDs(file_repository_field, file_names)`
  (`none` = query failure). -/
  fileQueryResult : Option (List Nat)
  /-- `self.repository.updateOnly()`. -/
  updateOnly : Bool
  /-- AIRR-map lookup for `"repertoire_id"` (`none` = mapping missing). -/
  repIdField : Option String
  /-- `repositoryGetRepertoires(rep_id_field, repertoire_id)`: the existing
  records sharing the incoming repertoire id. -/
  repArray : List RepRecord
  /-- `repository.insertRepertoire(json_document, link_repository_field)`
  (`none` = write failure). -/
  insertResult : Option Nat
deriving DecidableEq

/-- What `repositoryInsertRepertoire` did and returned. -/
inductive InsertOutcome where
  /-- Returned Python `None` before any repository write. -/
  | failed
  /-- Update mode: called `repository.updateRepertoire` keyed by
  `link_repository_field = linkValue` and returned its result. -/
  | updated (linkValue : Option Nat)
  /-- Insert mode: called `repository.insertRepertoire`, which returned
  `None`; the function returned `None`. -/
  | insertFailed
  /-- Insert mode: the insert succeeded with storage id `recId`; after the
  missing-id write-backs the created record's three identifier fields hold
  `finalRep`, `finalData`, `finalSample`. -/
  | inserted (recId : Nat) (finalRep finalData finalSample : String)
deriving DecidableEq

/-- The empty-string normalization applied to each incoming identifier
(lines 150-166): a present-but-empty field becomes `None`. -/
def normalizeId : Option String → Option String
  | some "" => none
  | x => x

/-- Lines 92-109: the id array obtained from the rearrangement-file check.
A document without file names skips the query with a warning and uses the
empty array. -/
def fileIdArray (env : InsertEnv) : Option (List Nat) :=
  if env.fileNames = none ∨ env.fileNames = some "" then some []
  else env.fileQueryResult

/-- The guard of the "Repertoire does not have any rearrangement files"
warning prints (lines 96-99). -/
def fileWarn (env : InsertEnv) : Bool :=
  env.fileNames = none || env.fileNames = some ""

/-- Lines 230-234: the incoming document's `data_processing_id` is present,
non-empty and differs from the record's present, non-empty stored value. -/
def distData (r : RepRecord) (did : Option String) : Bool :=
  r.data_id.isSome && !pyEqOpt r.data_id did && !(r.data_id == some "")
    && did.isSome && !(did == some "")

/-- Lines 239-243: the same test on `sample_processing_id`. -/
def distSample (r : RepRecord) (sid : Option String) : Bool :=
  r.sample_id.isSome && !pyEqOpt r.sample_id sid && !(r.sample_id == some "")
    && sid.isSome && !(sid == some "")

/-- The `duplicate` flag after the insert-mode loop over `rep_array`
(lines 220-245): it starts `True` and is cleared by every record that is
distinguishable on either processing id. -/
def duplicateCheck (reps : List RepRecord) (did sid : Option String) : Bool :=
  reps.foldl
    (fun dup r =>
      if distData r did then false
      else if distSample r sid then false
      else dup)
    true

/-- Line 188-190: the update-mode triple match, in the source's order
(sample, then data, then repertoire id). -/
def tripleMatches (r : RepRecord) (rid did sid : Option String) : Bool :=
  pyEqOpt r.sample_id sid && pyEqOpt r.data_id did && pyEqOpt r.rep_id rid

/-- The update-mode scan of `rep_array` (lines 184-198): `acc` is the running
`link_repository_value`.  Result `none` models `return None` on a second
triple match; `some acc` is the value left after the loop (possibly still
Python `None`). -/
def scanLinkValue (rid did sid : Option String) :
    List RepRecord → Option Nat → Option (Option Nat)
  | [], acc => some acc
  | r :: rest, acc =>
    if tripleMatches r rid did sid then
      match acc with
      | none => scanLinkValue rid did sid rest (some r.linkId)
      | some _ => none
    else scanLinkValue rid did sid rest acc

/-- Lines 283-291 composed with the inserted document: the value the created
record's identifier field ends up with.  A normalized-missing id is
overwritten with `str(record_id)`; a present non-empty id keeps its incoming
value. -/
def finalIdValue (nid : Option String) (recId : Nat) : String :=
  match nid with
  | none => Nat.repr recId
  | some s => s

/-- `Repertoire.repositoryInsertRepertoire`.  Timestamps, the rearrangement
count initialization and all prints are not modelled; every control-flow
decision of the source is. -/
def repositoryInsertRepertoire (env : InsertEnv) (doc : IncomingDoc) : InsertOutcome :=
  match fileIdArray env with
  | none => .failed
  | some idarray =>
    if ¬ env.updateOnly ∧ idarray.length ≠ 0 then .failed
    else
      match env.repIdField with
      | none => .failed
      | some _ =>
        let repertoire_id := normalizeId doc.rep_id
        let data_processing_id := normalizeId doc.data_id
        let sample_processing_id := normalizeId doc.sample_id
        if env.updateOnly then
          match env.repArray with
          | [] => .failed
          | [r] => .updated (some r.linkId)
          | _ :: _ :: _ =>
            match scanLinkValue repertoire_id data_processing_id sample_processing_id
                env.repArray none with
            | none => .failed
            | some linkValue => .updated linkValue
        else
          if env.repArray.length ≠ 0
              ∧ duplicateCheck env.repArray data_processing_id sample_processing_id then
            .failed
          else
            match env.insertResult with
            | none => .insertFailed
            | some recId =>
              .inserted recId
                (finalIdValue repertoire_id recId)
                (finalIdValue data_processing_id recId)
                (finalIdValue sample_processing_id recId)

/-! ## Supporting lemmas -/

/-- `Nat.toDigitsCore` never returns the empty list when it has fuel or a
non-empty accumulator. -/
theorem toDigitsCore_ne_nil (b : Nat) :
    ∀ (fuel n : Nat) (ds : List Char), fuel ≠ 0 ∨ ds ≠ [] →
      Nat.toDigitsCore b fuel n ds ≠ [] := by
  intro fuel
  induction fuel with
  | zero =>
    intro n ds h
    simp only [Nat.toDigitsCore]
    tauto
  | succ fuel ih =>
    intro n ds _
    simp only [Nat.toDigitsCore]
    split
    · simp
    · exact ih _ _ (Or.inr (by simp))

/-- `str(record_id)` is never the empty string. -/
theorem natRepr_ne_empty (n : Nat) : Nat.repr n ≠ "" := by
  have h : Nat.toDigits 10 n ≠ [] :=
    toDigitsCore_ne_nil 10 (n + 1) n [] (Or.inl (Nat.succ_ne_zero n))
  simp only [Nat.repr, List.asString]
  intro hc
  exact h (congrArg String.data hc)

/-- `normalizeId` never produces a present-but-empty value. -/
theorem normalizeId_ne_some_empty (o : Option String) : normalizeId o ≠ some "" := by
  match o with
  | none => simp [normalizeId]
  | some s =>
    by_cases h : s = "" <;> simp [normalizeId, h]

/-- The `duplicate` flag is true exactly when no existing record is
distinguishable on either processing id. -/
theorem duplicateCheck_eq_all (reps : List RepRecord) (did sid : Option String) :
    duplicateCheck reps did sid
      = reps.all fun r => !distData r did && !distSample r sid := by
  have key : ∀ (l : List RepRecord) (b : Bool),
      l.foldl
        (fun dup r =>
          if distData r did then false
          else if distSample r sid then false
          else dup) b
      = (b && l.all fun r => !distData r did && !distSample r sid) := by
    intro l
    induction l with
    | nil => simp
    | cons r rest ih =>
      intro b
      rw [List.foldl_cons, List.all_cons]
      by_cases h1 : distData r did
      · rw [if_pos h1, ih]
        simp [h1]
      · rw [if_neg h1]
        by_cases h2 : distSample r sid
        · rw [if_pos h2, ih]
          simp [h2]
        · rw [if_neg h2, ih]
          simp [h1, h2, Bool.and_assoc]
  unfold duplicateCheck
  rw [key reps true, Bool.true_and]

/-! ## The claims -/

/-- C1: `getRepertoireInfo` returns `None` when the repository query yields
zero matching repertoire ids, returns `None` when it yields more than one,
and returns exactly the sole identifier when it yields exactly one match. -/
theorem getRepertoireInfo_zero_one_many (ff : Option String)
    (query : String → Option (List Nat)) (fn : String) :
    (query fn = some [] → getRepertoireInfo ff query fn = none)
    ∧ (∀ ids, query fn = some ids → ids.length > 1 →
        getRepertoireInfo ff query fn = none)
    ∧ (∀ f x, ff = some f → query fn = some [x] →
        getRepertoireInfo ff query fn = some x) := by
  refine ⟨?_, ?_, ?_⟩
  · intro h
    cases ff <;> simp [getRepertoireInfo, h]
  · intro ids h hlen
    cases ff <;> simp [getRepertoireInfo, h]
    intro hzero
    omega
  · intro f x hff h
    subst hff
    simp [getRepertoireInfo, h]

/-- Witness for C1 at a concrete file name and query. -/
theorem getRepertoireInfo_zero_one_many_witness :
    getRepertoireInfo (some "f") (fun _ => some [5]) "f1.tsv" = some 5
    ∧ getRepertoireInfo (some "f") (fun _ => some [5, 6]) "f1.tsv" = none
    ∧ getRepertoireInfo (some "f") (fun _ => some []) "f1.tsv" = none :=
  ⟨(getRepertoireInfo_zero_one_many (some "f") (fun _ => some [5]) "f1.tsv").2.2
      "f" 5 rfl rfl,
   (getRepertoireInfo_zero_one_many (some "f") (fun _ => some [5, 6]) "f1.tsv").2.1
      [5, 6] rfl (by decide),
   (getRepertoireInfo_zero_one_many (some "f") (fun _ => some []) "f1.tsv").1 rfl⟩

/-- C9: when the key has no AIRR type mapping (`airr_type` lookup is `None`),
`validAIRRFieldType` returns `True` in non-strict mode and `False` in strict
mode, regardless of the value and of the other mapping attributes. -/
theorem validAIRRFieldType_no_type_mapping (fieldNullable : Option Bool)
    (isArray : Option Bool) (strict : Bool) (value : PyVal) :
    validAIRRFieldType none fieldNullable isArray strict value = !strict := by
  rw [validAIRRFieldType]
  cases strict <;> rfl

/-- C8: `checkIDFields` fails whenever any of the three linkage columns is
already a column of the incoming batch dataframe, and then assigns none of
the linkage columns. -/
theorem checkIDFields_preset_column (cols : List String)
    (repIdF dataIdF sampleIdF : Option String)
    (reps : List RepRecord) (linkIdVal : Nat)
    (h : optMemCols repIdF cols = true ∨ optMemCols dataIdF cols = true
        ∨ optMemCols sampleIdF cols = true) :
    checkIDFields cols repIdF dataIdF sampleIdF reps linkIdVal = (false, []) := by
  unfold checkIDFields
  rcases h with h | h | h
  · simp [h]
  · by_cases h1 : optMemCols repIdF cols <;> simp [h, h1]
  · by_cases h1 : optMemCols repIdF cols <;>
      by_cases h2 : optMemCols dataIdF cols <;> simp [h, h1, h2]

/-- Witness for C8: a batch that already carries the repertoire-id linkage
column is rejected with no assignments. -/
theorem checkIDFields_preset_column_witness :
    optMemCols (some "rid_col") ["junction", "rid_col"] = true
    ∧ checkIDFields ["junction", "rid_col"] (some "rid_col") (some "dp_col")
        (some "sp_col") [⟨7, some "R1", some "D1", some "S1"⟩] 7 = (false, []) :=
  ⟨by decide,
   checkIDFields_preset_column ["junction", "rid_col"] (some "rid_col")
     (some "dp_col") (some "sp_col") [⟨7, some "R1", some "D1", some "S1"⟩] 7
     (Or.inl (by decide))⟩

/-- The C3 counterexample environment: update mode, two existing records
share the incoming `repertoire_id` and neither matches the incoming triple
`(R1, D9, S9)`. -/
def envC3 : InsertEnv :=
  { fileNames := some "f1.tsv"
    fileQueryResult := some [7]
    updateOnly := true
    repIdField := some "repertoire_id"
    repArray := [⟨1, some "R1", some "D1", some "S1"⟩,
                 ⟨2, some "R1", some "D2", some "S2"⟩]
    insertResult := none }

/-- The C3 counterexample document. -/
def docC3 : IncomingDoc := ⟨some "R1", some "D9", some "S9"⟩

/-- C3: the claim says that in update mode, when more than one record shares
the incoming `repertoire_id` and no record's triple equals the incoming
triple, the operation fails fatally (returns `None`) without issuing any
update.  The code instead falls out of the scan with
`link_repository_value = None` and still calls
`repository.updateRepertoire` keyed by that `None` link value: an update is
issued. -/
theorem repositoryInsertRepertoire_update_no_match_issues_update :
    repositoryInsertRepertoire envC3 docC3 = .updated none := by decide

/-- Evaluation of the insert branch: once the rearrangement-file check has
passed with an empty id array and the `repertoire_id` mapping exists, the
function reduces to the duplicate test followed by the insert attempt. -/
theorem insertBranchEval (env : InsertEnv) (doc : IncomingDoc)
    (hmode : env.updateOnly = false)
    (hfile : fileIdArray env = some [])
    (f : String) (hf : env.repIdField = some f) :
    repositoryInsertRepertoire env doc =
      if env.repArray.length ≠ 0
          ∧ duplicateCheck env.repArray (normalizeId doc.data_id)
              (normalizeId doc.sample_id) then
        .failed
      else
        match env.insertResult with
        | none => .insertFailed
        | some recId =>
          .inserted recId
            (finalIdValue (normalizeId doc.rep_id) recId)
            (finalIdValue (normalizeId doc.data_id) recId)
            (finalIdValue (normalizeId doc.sample_id) recId) := by
  unfold repositoryInsertRepertoire
  rw [hfile, hf]
  simp [hmode]

/-- C2: in insert mode, once the rearrangement-file check has passed
(`fileIdArray env = some []`) and the `repertoire_id` mapping exists, with a
non-empty set `S = env.repArray` of existing records sharing the incoming
`repertoire_id`, the function returns `None` without inserting if and only
if no record of `S` is distinguishable from the incoming document
(`distData` / `distSample` are the source's distinguishability tests on the
two processing ids); when some record is distinguishable the insert is
attempted. -/
theorem repositoryInsertRepertoire_insert_uniqueness (env : InsertEnv)
    (doc : IncomingDoc)
    (hmode : env.updateOnly = false)
    (hfile : fileIdArray env = some [])
    (hmap : env.repIdField ≠ none)
    (hne : env.repArray ≠ []) :
    (repositoryInsertRepertoire env doc = .failed ↔
      ∀ r ∈ env.repArray,
        distData r (normalizeId doc.data_id) = false
        ∧ distSample r (normalizeId doc.sample_id) = false)
    ∧ ((∃ r ∈ env.repArray,
          distData r (normalizeId doc.data_id) = true
          ∨ distSample r (normalizeId doc.sample_id) = true) →
        repositoryInsertRepertoire env doc = .insertFailed
        ∨ ∃ recId v1 v2 v3,
            repositoryInsertRepertoire env doc = .inserted recId v1 v2 v3) := by
  obtain ⟨f, hf⟩ := Option.ne_none_iff_exists'.mp hmap
  have hlen : env.repArray.length ≠ 0 := by
    have := List.length_pos.mpr hne
    omega
  have heval := insertBranchEval env doc hmode hfile f hf
  have hdup : duplicateCheck env.repArray (normalizeId doc.data_id)
      (normalizeId doc.sample_id)
      = env.repArray.all fun r =>
          !distData r (normalizeId doc.data_id)
          && !distSample r (normalizeId doc.sample_id) :=
    duplicateCheck_eq_all _ _ _
  by_cases hd : duplicateCheck env.repArray (normalizeId doc.data_id)
      (normalizeId doc.sample_id) = true
  · rw [heval, if_pos ⟨hlen, hd⟩]
    rw [hd] at hdup
    have hall := (List.all_eq_true.mp hdup.symm)
    constructor
    · constructor
      · intro _ r hr
        have := hall r hr
        simp only [Bool.and_eq_true, Bool.not_eq_true'] at this
        exact this
      · intro _
        rfl
    · intro ⟨r, hr, hdist⟩
      have := hall r hr
      simp only [Bool.and_eq_true, Bool.not_eq_true'] at this
      rcases hdist with h | h
      · rw [this.1] at h
        exact absurd h (by simp)
      · rw [this.2] at h
        exact absurd h (by simp)
  · rw [heval, if_neg (fun hc => hd hc.2)]
    constructor
    · constructor
      · intro hfl
        cases hins : env.insertResult <;> rw [hins] at hfl <;> simp at hfl
      · intro hall
        exfalso
        apply hd
        rw [hdup, List.all_eq_true]
        intro r hr
        simp [(hall r hr).1, (hall r hr).2]
    · intro _
      cases hins : env.insertResult with
      | none => exact Or.inl rfl
      | some recId => exact Or.inr ⟨recId, _, _, _, rfl⟩

/-- Witness for C2: the spec's own example.  An existing record
`(R1, D1, S1)` and an incoming document `(R1, D2, S1)` are distinguishable
on `data_processing_id`; the same incoming document without a
`data_processing_id` cannot be distinguished from it. -/
theorem repositoryInsertRepertoire_insert_uniqueness_witness :
    (repositoryInsertRepertoire
        ⟨some "f1.tsv", some [], false, some "repertoire_id",
          [⟨1, some "R1", some "D1", some "S1"⟩], some 42⟩
        ⟨some "R1", some "D2", some "S1"⟩ = .failed ↔
      ∀ r ∈ [RepRecord.mk 1 (some "R1") (some "D1") (some "S1")],
        distData r (normalizeId (some "D2")) = false
        ∧ distSample r (normalizeId (some "S1")) = false)
    ∧ (repositoryInsertRepertoire
        ⟨some "f1.tsv", some [], false, some "repertoire_id",
          [⟨1, some "R1", some "D1", some "S1"⟩], some 42⟩
        ⟨some "R1", none, some "S1"⟩ = .failed ↔
      ∀ r ∈ [RepRecord.mk 1 (some "R1") (some "D1") (some "S1")],
        distData r (normalizeId none) = false
        ∧ distSample r (normalizeId (some "S1")) = false) :=
  ⟨(repositoryInsertRepertoire_insert_uniqueness
      ⟨some "f1.tsv", some [], false, some "repertoire_id",
        [⟨1, some "R1", some "D1", some "S1"⟩], some 42⟩
      ⟨some "R1", some "D2", some "S1"⟩
      rfl (by decide) (by decide) (by decide)).1,
   (repositoryInsertRepertoire_insert_uniqueness
      ⟨some "f1.tsv", some [], false, some "repertoire_id",
        [⟨1, some "R1", some "D1", some "S1"⟩], some 42⟩
      ⟨some "R1", none, some "S1"⟩
      rfl (by decide) (by decide) (by decide)).1⟩

/-- An identifier that was absent or empty on input normalizes to missing. -/
theorem normalizeId_of_missing (o : Option String)
    (h : o = none ∨ o = some "") : normalizeId o = none := by
  rcases h with h | h <;> rw [h] <;> rfl

/-- The committed value of each identifier field is never the empty string. -/
theorem finalIdValue_ne_empty (o : Option String) (recId : Nat) :
    finalIdValue (normalizeId o) recId ≠ "" := by
  cases h : normalizeId o with
  | none => exact natRepr_ne_empty recId
  | some s =>
    have hne := normalizeId_ne_some_empty o
    rw [h] at hne
    simpa [finalIdValue] using fun hc => hne (by rw [hc])

/-- C4: a successful insert commits the record with each identifier field
that was absent or empty on input overwritten by `str(record_id)`, and all
three identifier fields non-empty. -/
theorem repositoryInsertRepertoire_writeback (env : InsertEnv)
    (doc : IncomingDoc) (recId : Nat)
    (hmode : env.updateOnly = false)
    (hfile : fileIdArray env = some [])
    (f : String) (hf : env.repIdField = some f)
    (hdup : ¬(env.repArray.length ≠ 0
        ∧ duplicateCheck env.repArray (normalizeId doc.data_id)
            (normalizeId doc.sample_id) = true))
    (hins : env.insertResult = some recId) :
    repositoryInsertRepertoire env doc =
      .inserted recId
        (finalIdValue (normalizeId doc.rep_id) recId)
        (finalIdValue (normalizeId doc.data_id) recId)
        (finalIdValue (normalizeId doc.sample_id) recId)
    ∧ ((doc.rep_id = none ∨ doc.rep_id = some "") →
        finalIdValue (normalizeId doc.rep_id) recId = Nat.repr recId)
    ∧ ((doc.data_id = none ∨ doc.data_id = some "") →
        finalIdValue (normalizeId doc.data_id) recId = Nat.repr recId)
    ∧ ((doc.sample_id = none ∨ doc.sample_id = some "") →
        finalIdValue (normalizeId doc.sample_id) recId = Nat.repr recId)
    ∧ finalIdValue (normalizeId doc.rep_id) recId ≠ ""
    ∧ finalIdValue (normalizeId doc.data_id) recId ≠ ""
    ∧ finalIdValue (normalizeId doc.sample_id) recId ≠ "" := by
  refine ⟨?_, ?_, ?_, ?_, finalIdValue_ne_empty _ _, finalIdValue_ne_empty _ _,
    finalIdValue_ne_empty _ _⟩
  · rw [insertBranchEval env doc hmode hfile f hf, if_neg hdup, hins]
  · intro h
    rw [normalizeId_of_missing _ h]
    rfl
  · intro h
    rw [normalizeId_of_missing _ h]
    rfl
  · intro h
    rw [normalizeId_of_missing _ h]
    rfl

/-- Witness for C4: inserting with an empty `repertoire_id`, an absent
`data_processing_id` and a present `sample_processing_id` commits the
record `(str(42), str(42), "S9")`. -/
theorem repositoryInsertRepertoire_writeback_witness :
    repositoryInsertRepertoire
        ⟨none, none, false, some "repertoire_id", [], some 42⟩
        ⟨some "", none, some "S9"⟩
      = .inserted 42 "42" "42" "S9" := by
  have h := repositoryInsertRepertoire_writeback
    ⟨none, none, false, some "repertoire_id", [], some 42⟩
    ⟨some "", none, some "S9"⟩ 42 rfl (by decide) "repertoire_id" rfl
    (by decide) rfl
  exact h.1

/-- C10: in insert mode, a non-empty answer to the rearrangement-file query
makes the function return `None` before the triple-based uniqueness check
and before any write, whatever `repArray` and the incoming ids are; a
document with no file names triggers the warning guard, skips the query and
can still be inserted. -/
theorem repositoryInsertRepertoire_file_conflict (env : InsertEnv)
    (doc : IncomingDoc)
    (hmode : env.updateOnly = false) :
    (∀ l, env.fileNames ≠ none → env.fileNames ≠ some "" →
        env.fileQueryResult = some l → l ≠ [] →
        repositoryInsertRepertoire env doc = .failed)
    ∧ ((env.fileNames = none ∨ env.fileNames = some "") →
        fileWarn env = true
        ∧ ∀ f recId, env.repIdField = some f → env.repArray = [] →
            env.insertResult = some recId →
            ∃ v1 v2 v3,
              repositoryInsertRepertoire env doc = .inserted recId v1 v2 v3) := by
  constructor
  · intro l h1 h2 hq hl
    have hfile : fileIdArray env = some l := by
      unfold fileIdArray
      rw [if_neg (by tauto), hq]
    unfold repositoryInsertRepertoire
    rw [hfile]
    have : l.length ≠ 0 := by
      have := List.length_pos.mpr hl
      omega
    simp [hmode, this]
  · intro h
    have hfile : fileIdArray env = some [] := by
      unfold fileIdArray
      rw [if_pos h]
    refine ⟨by unfold fileWarn; rcases h with h | h <;> simp [h], ?_⟩
    intro f recId hf harr hins
    have heval := insertBranchEval env doc hmode hfile f hf
    rw [if_neg (by rw [harr]; simp), hins] at heval
    exact ⟨_, _, _, heval⟩

/-- Witness for C10: a repository already holding a repertoire for file
`f1.tsv` blocks the insert, while a document without file names is
inserted. -/
theorem repositoryInsertRepertoire_file_conflict_witness :
    repositoryInsertRepertoire
        ⟨some "f1.tsv", some [3], false, some "repertoire_id",
          [], some 42⟩ ⟨some "R1", none, none⟩ = .failed
    ∧ fileWarn ⟨none, none, false, some "repertoire_id", [], some 42⟩ = true
    ∧ ∃ v1 v2 v3,
        repositoryInsertRepertoire
          ⟨none, none, false, some "repertoire_id", [], some 42⟩
          ⟨some "R1", none, none⟩ = .inserted 42 v1 v2 v3 :=
  ⟨(repositoryInsertRepertoire_file_conflict
      ⟨some "f1.tsv", some [3], false, some "repertoire_id", [], some 42⟩
      ⟨some "R1", none, none⟩ rfl).1 [3] (by decide) (by decide) rfl (by decide),
   ((repositoryInsertRepertoire_file_conflict
      ⟨none, none, false, some "repertoire_id", [], some 42⟩
      ⟨some "R1", none, none⟩ rfl).2 (Or.inl rfl)).1,
   ((repositoryInsertRepertoire_file_conflict
      ⟨none, none, false, some "repertoire_id", [], some 42⟩
      ⟨some "R1", none, none⟩ rfl).2 (Or.inl rfl)).2 "repertoire_id" 42 rfl rfl rfl⟩

/-- C5: every element of a `setGene` call array is either a deduplicated
split token starting with `IG` or `TR` kept unchanged, or the first four
characters of the original input string prepended to a hyphen-containing
token; a string none of whose tokens is `IG`/`TR`-prefixed or hyphenated
yields the empty array, and a non-string or empty input yields the empty
list. -/
theorem setGene_spec (gene : Option String) :
    (∀ g, gene = some g →
      (∀ x ∈ setGene gene, ∃ tok ∈ geneTokens g,
          (x = tok
            ∧ (strStartsWith tok "IG" || strStartsWith tok "TR") = true)
          ∨ ((strStartsWith tok "IG" || strStartsWith tok "TR") = false
            ∧ containsHyphen tok = true
            ∧ x = strTake g 4 ++ tok))
      ∧ ((∀ tok ∈ geneTokens g,
            (strStartsWith tok "IG" || strStartsWith tok "TR") = false
            ∧ containsHyphen tok = false) →
          setGene gene = []))
    ∧ ((gene = none ∨ gene = some "") → setGene gene = []) := by
  constructor
  · intro g hg
    subst hg
    by_cases hG : g = ""
    · subst hG
      exact ⟨by intro x hx; simp [setGene] at hx, fun _ => by simp [setGene]⟩
    · constructor
      · intro x hx
        simp only [setGene, if_neg hG] at hx
        split at hx
        · simp at hx
        · obtain ⟨tok, htok, hfx⟩ := List.mem_filterMap.mp hx
          refine ⟨tok, htok, ?_⟩
          by_cases h1 : (strStartsWith tok "IG" || strStartsWith tok "TR") = true
          · rw [if_pos h1] at hfx
            exact Or.inl ⟨(Option.some.injEq _ _).mp hfx |>.symm, h1⟩
          · rw [if_neg h1] at hfx
            by_cases h2 : containsHyphen tok = true
            · rw [if_pos h2] at hfx
              exact Or.inr ⟨Bool.not_eq_true _ ▸ h1, h2,
                ((Option.some.injEq _ _).mp hfx).symm⟩
            · rw [if_neg h2] at hfx
              exact absurd hfx (by simp)
      · intro hall
        simp only [setGene, if_neg hG]
        split
        · rfl
        · rw [List.filterMap_eq_nil_iff]
          intro tok htok
          rw [if_neg (by simp [(hall tok htok).1]), if_neg (by simp [(hall tok htok).2])]
  · intro h
    rcases h with h | h <;> rw [h] <;> rfl

/-- Witness for C5: a gene-call string with no `IG`/`TR`-prefixed and no
hyphenated token yields an empty call array, and a non-string input yields
the empty list. -/
theorem setGene_spec_witness :
    setGene (some "abc def") = [] ∧ setGene none = [] :=
  ⟨((setGene_spec (some "abc def")).1 "abc def" rfl).2 (by decide),
   (setGene_spec none).2 (Or.inl rfl)⟩

/-- The 3-character slice of an entry longer than 3 has length exactly 3. -/
theorem strTake_three_length (v : String) (h : v.length > 3) :
    (strTake v 3).length = 3 := by
  have hd : v.data.length > 3 := h
  show (v.data.take 3).length = 3
  rw [List.length_take]
  omega

/-- Once a locus of length 3 is established, the loop never changes it. -/
theorem getLocusLoop_fixed (arr : List String) :
    ∀ (locus : String) (warns : List LocusWarning), locus.length = 3 →
      (getLocusLoop arr locus warns).1 = locus := by
  induction arr with
  | nil => intro locus warns _; rfl
  | cons v rest ih =>
    intro locus warns h
    rw [getLocusLoop, if_neg (by omega)]
    by_cases hv : strTake v 3 ≠ locus
    · rw [if_pos hv]
      exact ih _ _ h
    · rw [if_neg hv]
      exact ih _ _ h

/-- The locus the loop computes is the 3-character slice of the first entry
of length greater than 3. -/
theorem getLocusLoop_fst (arr : List String) :
    ∀ warns : List LocusWarning,
      (getLocusLoop arr "" warns).1 = firstLocus arr := by
  induction arr with
  | nil => intro warns; rfl
  | cons v rest ih =>
    intro warns
    rw [getLocusLoop, if_pos (by simp [String.length])]
    by_cases hv : v.length > 3
    · rw [if_pos hv]
      rw [getLocusLoop_fixed rest _ warns (strTake_three_length v hv)]
      simp [firstLocus, List.find?_cons_of_pos, hv]
    · rw [if_neg hv]
      rw [ih]
      have : (fun u : String => decide (u.length > 3)) v = false := by
        simpa using hv
      simp [firstLocus, List.find?_cons_of_neg, this]

/-- The loop only appends warnings. -/
theorem getLocusLoop_warns_extend (arr : List String) :
    ∀ (locus : String) (warns : List LocusWarning),
      ∃ extra, (getLocusLoop arr locus warns).2 = warns ++ extra := by
  induction arr with
  | nil => intro locus warns; exact ⟨[], by simp [getLocusLoop]⟩
  | cons v rest ih =>
    intro locus warns
    rw [getLocusLoop]
    by_cases h1 : locus.length ≠ 3
    · rw [if_pos h1]
      by_cases h2 : v.length > 3
      · rw [if_pos h2]
        exact ih _ _
      · rw [if_neg h2]
        obtain ⟨e, he⟩ := ih locus (warns ++ [.invalidVCall v])
        exact ⟨.invalidVCall v :: e, by simp [he]⟩
    · rw [if_neg h1]
      by_cases h2 : strTake v 3 ≠ locus
      · rw [if_pos h2]
        obtain ⟨e, he⟩ := ih locus (warns ++ [.inconsistentLoci])
        exact ⟨.inconsistentLoci :: e, by simp [he]⟩
      · rw [if_neg h2]
        exact ih _ _

/-- The loop processes a concatenation by processing the pieces in turn. -/
theorem getLocusLoop_append (xs : List String) :
    ∀ (ys : List String) (locus : String) (warns : List LocusWarning),
      getLocusLoop (xs ++ ys) locus warns
        = getLocusLoop ys (getLocusLoop xs locus warns).1
            (getLocusLoop xs locus warns).2 := by
  induction xs with
  | nil => intro ys locus warns; rfl
  | cons v rest ih =>
    intro ys locus warns
    rw [List.cons_append, getLocusLoop]
    by_cases h1 : locus.length ≠ 3
    · rw [if_pos h1]
      by_cases h2 : v.length > 3
      · rw [if_pos h2, ih, getLocusLoop, if_pos h1, if_pos h2]
      · rw [if_neg h2, ih, getLocusLoop, if_pos h1, if_neg h2]
    · rw [if_neg h1]
      by_cases h2 : strTake v 3 ≠ locus
      · rw [if_pos h2, ih, getLocusLoop, if_neg h1, if_pos h2]
      · rw [if_neg h2, ih, getLocusLoop, if_neg h1, if_neg h2]

/-- The returned locus string is the loop's locus, whether or not the final
sanity check fires. -/
theorem getLocus_fst (arr : List String) :
    (getLocus arr).1 = firstLocus arr := by
  unfold getLocus
  split <;> simp [getLocusLoop_fst]

/-- The final sanity check can only add to the loop's warnings. -/
theorem getLocus_snd_ne_nil (arr : List String)
    (h : (getLocusLoop arr "" []).2 ≠ []) : (getLocus arr).2 ≠ [] := by
  unfold getLocus
  split
  · simp
  · exact h

/-- C6: `getLocus` establishes the locus as the 3-character slice of the
first v-call entry of length greater than 3; a later entry whose
3-character slice disagrees produces a warning without changing the
established value; and the established value is still returned (with a
warning) even when it does not start with `IG` or `TR`. -/
theorem getLocus_spec (arr : List String) :
    (getLocus arr).1 = firstLocus arr
    ∧ (∀ xs v ys, arr = xs ++ v :: ys →
        (∃ w ∈ xs, w.length > 3) →
        strTake v 3 ≠ (getLocus arr).1 →
        (getLocus arr).2 ≠ [])
    ∧ ((getLocus arr).1.length = 3 →
        strTake (getLocus arr).1 2 ≠ "IG" →
        strTake (getLocus arr).1 2 ≠ "TR" →
        (getLocus arr).2 ≠ []) := by
  refine ⟨getLocus_fst arr, ?_, ?_⟩
  · intro xs v ys harr hlong hdis
    subst harr
    apply getLocus_snd_ne_nil
    rw [getLocusLoop_append]
    obtain ⟨w, hw⟩ : ∃ w, xs.find? (fun u => u.length > 3) = some w := by
      obtain ⟨w, hwmem, hwl⟩ := hlong
      have hsome : (xs.find? fun u => u.length > 3).isSome := by
        rw [List.find?_isSome]
        exact ⟨w, hwmem, by simpa using hwl⟩
      exact Option.isSome_iff_exists.mp hsome
    have hwlen : w.length > 3 := by
      have := List.find?_some hw
      simpa using this
    have hxs : (getLocusLoop xs "" []).1 = strTake w 3 := by
      rw [getLocusLoop_fst]
      simp [firstLocus, hw]
    have hxs3 : (getLocusLoop xs "" []).1.length = 3 := by
      rw [hxs]
      exact strTake_three_length w hwlen
    have harrfst : (getLocus (xs ++ v :: ys)).1 = (getLocusLoop xs "" []).1 := by
      rw [getLocus_fst, ← getLocusLoop_fst (xs ++ v :: ys) [], getLocusLoop_append]
      exact getLocusLoop_fixed _ _ _ hxs3
    rw [harrfst] at hdis
    rw [getLocusLoop, if_neg (by omega), if_pos hdis]
    obtain ⟨e, he⟩ := getLocusLoop_warns_extend ys (getLocusLoop xs "" []).1
      ((getLocusLoop xs "" []).2 ++ [.inconsistentLoci])
    rw [he]
    simp
  · intro h3 hig htr
    unfold getLocus
    split
    · simp
    · rename_i hcond
      rw [getLocus_fst] at h3 hig htr
      rw [← getLocusLoop_fst arr []] at h3 hig htr
      exact absurd ⟨h3, hig, htr⟩ hcond

/-- Witness for C6: over `["IGHV3-23*01", "IGKV1-2*01"]` the established
locus is `IGH` and the disagreeing second entry leaves a warning. -/
theorem getLocus_spec_witness :
    (getLocus ["IGHV3-23*01", "IGKV1-2*01"]).1
        = firstLocus ["IGHV3-23*01", "IGKV1-2*01"]
    ∧ (getLocus ["IGHV3-23*01", "IGKV1-2*01"]).2 ≠ [] :=
  ⟨(getLocus_spec ["IGHV3-23*01", "IGKV1-2*01"]).1,
   (getLocus_spec ["IGHV3-23*01", "IGKV1-2*01"]).2.1 ["IGHV3-23*01"]
     "IGKV1-2*01" [] rfl (by decide) (by decide)⟩

/-- A boolean that is not true is false. -/
theorem bool_eq_false {b : Bool} (h : ¬ b = true) : b = false := by
  cases b with
  | false => rfl
  | true => exact absurd rfl h

/-- Column membership survives appending columns. -/
theorem colMem_mono (cols extra : List (String × ColSource)) (f : String)
    (h : colMem cols f = true) : colMem (cols ++ extra) f = true := by
  simp only [colMem, List.any_append, Bool.or_eq_true]
  exact Or.inl h

/-- Column membership survives any superset of the columns. -/
theorem colMem_subset {cols cols2 : List (String × ColSource)} {f : String}
    (h : colMem cols f = true) (hsub : ∀ c ∈ cols, c ∈ cols2) :
    colMem cols2 f = true := by
  simp only [colMem, List.any_eq_true] at h ⊢
  obtain ⟨c, hc, hcf⟩ := h
  exact ⟨c, hsub c hc, hcf⟩

/-- A listed column is a member. -/
theorem colMem_of_mem {cols : List (String × ColSource)} {f : String}
    {v : ColSource} (h : (f, v) ∈ cols) : colMem cols f = true := by
  simp only [colMem, List.any_eq_true]
  exact ⟨(f, v), h, by simp⟩

/-- A successful validation only appends columns, and everything it appends
is a null-filled column. -/
theorem checkAIRRRequired_ok_extends (fields : List AirrFieldRow) :
    ∀ cols cols2, checkAIRRRequired fields cols = .ok cols2 →
      ∃ extra, cols2 = cols ++ extra
        ∧ ∀ e ∈ extra, e.2 = ColSource.nullFill := by
  induction fields with
  | nil =>
    intro cols cols2 h
    rw [checkAIRRRequired] at h
    obtain rfl : cols = cols2 := (Except.ok.injEq _ _).mp h
    exact ⟨[], by simp⟩
  | cons row rest ih =>
    intro cols cols2 h
    rw [checkAIRRRequired] at h
    by_cases hreq : row.airr_required = true
    · rw [if_pos hreq] at h
      by_cases hmem : colMem cols row.repository_field = true
      · rw [if_neg (not_not_intro hmem)] at h
        exact ih cols cols2 h
      · rw [if_pos hmem] at h
        by_cases hnul : row.airr_nullable = true
        · rw [if_pos hnul] at h
          obtain ⟨extra, he, hall⟩ := ih _ _ h
          refine ⟨(row.repository_field, .nullFill) :: extra, by rw [he]; simp, ?_⟩
          intro e hemem
          rcases List.mem_cons.mp hemem with h1 | h1
          · rw [h1]
          · exact hall e h1
        · rw [if_neg hnul] at h
          exact absurd h (by simp)
    · rw [if_neg hreq] at h
      exact ih cols cols2 h

/-- If every required non-nullable field's column is present, validation
succeeds. -/
theorem checkAIRRRequired_ok_of_present (fields : List AirrFieldRow) :
    ∀ cols,
      (∀ row ∈ fields, row.airr_required = true → row.airr_nullable = false →
        colMem cols row.repository_field = true) →
      ∃ cols2, checkAIRRRequired fields cols = .ok cols2 := by
  induction fields with
  | nil =>
    intro cols _
    exact ⟨cols, rfl⟩
  | cons row rest ih =>
    intro cols hall
    rw [checkAIRRRequired]
    by_cases hreq : row.airr_required = true
    · rw [if_pos hreq]
      by_cases hmem : colMem cols row.repository_field = true
      · rw [if_neg (not_not_intro hmem)]
        exact ih cols fun r hr => hall r (List.mem_cons_of_mem _ hr)
      · rw [if_pos hmem]
        by_cases hnul : row.airr_nullable = true
        · rw [if_pos hnul]
          apply ih
          intro r hr h1 h2
          exact colMem_mono _ _ _ (hall r (List.mem_cons_of_mem _ hr) h1 h2)
        · exact absurd
            (hall row (List.mem_cons_self _ _) hreq (bool_eq_false hnul)) hmem
    · rw [if_neg hreq]
      exact ih cols fun r hr => hall r (List.mem_cons_of_mem _ hr)

/-- A failed validation names a required, non-nullable field whose column is
absent from the batch it was given. -/
theorem checkAIRRRequired_error_missing (fields : List AirrFieldRow) :
    ∀ cols name, checkAIRRRequired fields cols = .error name →
      ∃ row ∈ fields, row.airr_required = true ∧ row.airr_nullable = false
        ∧ name = row.airr_name
        ∧ colMem cols row.repository_field = false := by
  induction fields with
  | nil =>
    intro cols name h
    rw [checkAIRRRequired] at h
    exact absurd h (by simp)
  | cons row rest ih =>
    intro cols name h
    rw [checkAIRRRequired] at h
    by_cases hreq : row.airr_required = true
    · rw [if_pos hreq] at h
      by_cases hmem : colMem cols row.repository_field = true
      · rw [if_neg (not_not_intro hmem)] at h
        obtain ⟨r, hr, h1, h2, h3, h4⟩ := ih cols name h
        exact ⟨r, List.mem_cons_of_mem _ hr, h1, h2, h3, h4⟩
      · rw [if_pos hmem] at h
        by_cases hnul : row.airr_nullable = true
        · rw [if_pos hnul] at h
          obtain ⟨r, hr, h1, h2, h3, h4⟩ := ih _ name h
          refine ⟨r, List.mem_cons_of_mem _ hr, h1, h2, h3, bool_eq_false ?_⟩
          intro hc
          have := colMem_mono cols [(row.repository_field, .nullFill)] _ hc
          rw [this] at h4
          exact Bool.true_eq_false.mp h4
        · rw [if_neg hnul] at h
          have hname : name = row.airr_name := ((Except.error.injEq _ _).mp h).symm
          exact ⟨row, List.mem_cons_self _ _, hreq, bool_eq_false hnul, hname,
            bool_eq_false hmem⟩
    · rw [if_neg hreq] at h
      obtain ⟨r, hr, h1, h2, h3, h4⟩ := ih cols name h
      exact ⟨r, List.mem_cons_of_mem _ hr, h1, h2, h3, h4⟩

/-- A successful validation keeps every original column, ends with every
required field's column present, and holds a null-filled column for every
required nullable field that was missing. -/
theorem checkAIRRRequired_ok_filled (fields : List AirrFieldRow) :
    ∀ cols cols2, checkAIRRRequired fields cols = .ok cols2 →
      (∀ c ∈ cols, c ∈ cols2)
      ∧ (∀ row ∈ fields, row.airr_required = true →
          colMem cols2 row.repository_field = true)
      ∧ (∀ row ∈ fields, row.airr_required = true → row.airr_nullable = true →
          colMem cols row.repository_field = false →
          (row.repository_field, ColSource.nullFill) ∈ cols2) := by
  induction fields with
  | nil =>
    intro cols cols2 h
    rw [checkAIRRRequired] at h
    obtain rfl : cols = cols2 := (Except.ok.injEq _ _).mp h
    exact ⟨fun c hc => hc, by simp, by simp⟩
  | cons row rest ih =>
    intro cols cols2 h
    have hsub : ∀ c ∈ cols, c ∈ cols2 := by
      obtain ⟨extra, he, _⟩ := checkAIRRRequired_ok_extends (row :: rest) cols cols2 h
      rw [he]
      intro c hc
      exact List.mem_append_left _ hc
    rw [checkAIRRRequired] at h
    by_cases hreq : row.airr_required = true
    · rw [if_pos hreq] at h
      by_cases hmem : colMem cols row.repository_field = true
      · rw [if_neg (not_not_intro hmem)] at h
        obtain ⟨_, ih2, ih3⟩ := ih cols cols2 h
        refine ⟨hsub, ?_, ?_⟩
        · intro r hr hrq
          rcases List.mem_cons.mp hr with rfl | hr2
          · exact colMem_subset hmem hsub
          · exact ih2 r hr2 hrq
        · intro r hr hrq hrn hout
          rcases List.mem_cons.mp hr with rfl | hr2
          · rw [hout] at hmem
            exact absurd hmem (by simp)
          · exact ih3 r hr2 hrq hrn hout
      · rw [if_pos hmem] at h
        by_cases hnul : row.airr_nullable = true
        · rw [if_pos hnul] at h
          obtain ⟨ih1, ih2, ih3⟩ := ih _ cols2 h
          have hinj : (row.repository_field, ColSource.nullFill) ∈ cols2 :=
            ih1 _ (by simp)
          refine ⟨hsub, ?_, ?_⟩
          · intro r hr hrq
            rcases List.mem_cons.mp hr with rfl | hr2
            · exact colMem_of_mem hinj
            · exact ih2 r hr2 hrq
          · intro r hr hrq hrn hout
            rcases List.mem_cons.mp hr with rfl | hr2
            · exact hinj
            · by_cases hsame :
                  colMem (cols ++ [(row.repository_field, ColSource.nullFill)])
                    r.repository_field = true
              · have hrf : r.repository_field = row.repository_field := by
                  simp only [colMem, List.any_append, Bool.or_eq_true,
                    List.any_eq_true] at hsame
                  rcases hsame with hin | hone
                  · exfalso
                    obtain ⟨c, hc, hcf⟩ := hin
                    have : colMem cols r.repository_field = true :=
                      List.any_eq_true.mpr ⟨c, hc, hcf⟩
                    rw [this] at hout
                    exact absurd hout (by simp)
                  · obtain ⟨c, hc, hcf⟩ := hone
                    simp only [List.mem_singleton] at hc
                    rw [hc] at hcf
                    exact (of_decide_eq_true hcf).symm
                rw [hrf]
                exact hinj
              · exact ih3 r hr2 hrq hrn (bool_eq_false hsame)
        · rw [if_neg hnul] at h
          exact absurd h (by simp)
    · rw [if_neg hreq] at h
      obtain ⟨_, ih2, ih3⟩ := ih cols cols2 h
      refine ⟨hsub, ?_, ?_⟩
      · intro r hr hrq
        rcases List.mem_cons.mp hr with rfl | hr2
        · exact absurd hrq hreq
        · exact ih2 r hr2 hrq
      · intro r hr hrq hrn hout
        rcases List.mem_cons.mp hr with rfl | hr2
        · exact absurd hrq hreq
        · exact ih3 r hr2 hrq hrn hout

/-- C7: for every mandatory (`airr_required`) field whose repository column
is absent from the batch, a nullable field is injected as an all-null
column with validation continuing, a non-nullable field fails the whole
validation naming the field, and validation succeeds whenever no
non-nullable mandatory field is missing. -/
theorem checkAIRRRequired_spec (fields : List AirrFieldRow)
    (cols : List (String × ColSource)) :
    ((∀ row ∈ fields, row.airr_required = true → row.airr_nullable = false →
        colMem cols row.repository_field = true) →
      ∃ cols2, checkAIRRRequired fields cols = .ok cols2)
    ∧ (∀ name, checkAIRRRequired fields cols = .error name →
        ∃ row ∈ fields, row.airr_required = true ∧ row.airr_nullable = false
          ∧ name = row.airr_name
          ∧ colMem cols row.repository_field = false)
    ∧ (∀ cols2, checkAIRRRequired fields cols = .ok cols2 →
        (∀ c ∈ cols, c ∈ cols2)
        ∧ (∀ row ∈ fields, row.airr_required = true →
            colMem cols2 row.repository_field = true)
        ∧ (∀ row ∈ fields, row.airr_required = true → row.airr_nullable = true →
            colMem cols row.repository_field = false →
            (row.repository_field, ColSource.nullFill) ∈ cols2)) :=
  ⟨checkAIRRRequired_ok_of_present fields cols,
   checkAIRRRequired_error_missing fields cols,
   fun cols2 h => checkAIRRRequired_ok_filled fields cols cols2 h⟩

/-- Witness for C7: a missing nullable mandatory field lets validation
succeed, a missing non-nullable mandatory field fails it naming the
field. -/
theorem checkAIRRRequired_spec_witness :
    (∃ cols2,
        checkAIRRRequired [⟨true, true, "x_col", "fieldx"⟩] [] = .ok cols2)
    ∧ (∃ row ∈ [AirrFieldRow.mk true false "z_col" "fieldz"],
        row.airr_required = true ∧ row.airr_nullable = false
          ∧ "fieldz" = row.airr_name ∧ colMem [] row.repository_field = false) :=
  ⟨(checkAIRRRequired_spec [⟨true, true, "x_col", "fieldx"⟩] []).1 (by decide),
   (checkAIRRRequired_spec [⟨true, false, "z_col", "fieldz"⟩] []).2.1 "fieldz" rfl⟩

end Dataload
